import Mathlib

/-!
Verification of the ID allocator of Self-CLI
(`.codex/skills/superagents/scripts/sa_id.py`).

The Python code is shallowly embedded: JSON documents become an inductive
`JVal`, Python dicts become association lists with insertion-order-preserving
update, the registry file and the lock file become an explicit `FS` state
threaded through the allocator, and every fallible operation returns
`Except SaError`.  Machine-level details that the source does not depend on
(Unicode digit classes, underscore separators inside Python integer
literals, float JSON numbers) are noted at the definition that abstracts
them.
-/

namespace SaId

/-- Model of a parsed JSON value as produced by `json.load`.  JSON numbers
are modelled as integers: the registry documents read and written by
`sa_id.py` contain only integer numbers and strings, so float literals are
not modelled. -/
inductive JVal where
  | null
  | bool (b : Bool)
  | num (n : Int)
  | str (s : String)
  | arr (elems : List JVal)
  | obj (fields : List (String × JVal))

/-- Python truthiness `bool(v)` of a JSON value (used by the `x or y`
idioms in the source). -/
def pyTruthy : JVal → Bool
  | .null => false
  | .bool b => b
  | .num n => n != 0
  | .str s => s != ""
  | .arr l => !l.isEmpty
  | .obj l => !l.isEmpty

/-- Characters stripped by Python `int(str)` before parsing. -/
def isPySpace (c : Char) : Bool :=
  c = ' ' || c = '\t' || c = '\n' || c = '\r'

/-- Numeric value of a list of decimal digit characters. -/
def digitsVal (ds : List Char) : Nat :=
  ds.foldl (fun a c => 10 * a + (c.toNat - 48)) 0

/-- Python `int(s)` on a string: surrounding whitespace stripped, an
optional single sign, then a nonempty run of decimal digits.  (Python also
accepts underscore separators and non-ASCII digits; neither can occur in
the documents this tool reads or writes, so they are not modelled.) -/
def pyIntOfStr (s : String) : Option Int :=
  let cs := ((s.toList.dropWhile isPySpace).reverse.dropWhile isPySpace).reverse
  match cs with
  | '-' :: rest =>
      if !rest.isEmpty && rest.all Char.isDigit then some (-(digitsVal rest : Int)) else none
  | '+' :: rest =>
      if !rest.isEmpty && rest.all Char.isDigit then some (digitsVal rest : Int) else none
  | rest =>
      if !rest.isEmpty && rest.all Char.isDigit then some (digitsVal rest : Int) else none

/-- Python `int(v)` on a JSON value.  Integers pass through, booleans
coerce, strings are parsed; `None`, lists and objects raise `TypeError`,
modelled as `none`. -/
def pyInt : JVal → Option Int
  | .num n => some n
  | .bool b => some (if b then 1 else 0)
  | .str s => pyIntOfStr s
  | _ => none

/-- Lookup in a JSON object (`dict.get`). -/
def jGet : List (String × JVal) → String → Option JVal
  | [], _ => none
  | (k, v) :: rest, key => if k = key then some v else jGet rest key

/-- Python dict assignment `d[k] = v`: replaces in place when the key is
present, appends otherwise (insertion order is preserved). -/
def jSet : List (String × JVal) → String → JVal → List (String × JVal)
  | [], key, v => [(key, v)]
  | (k, w) :: rest, key, v =>
      if k = key then (key, v) :: rest else (k, w) :: jSet rest key v

/-- Lookup in an integer-valued counters dict. -/
def cLookup : List (String × Int) → String → Option Int
  | [], _ => none
  | (k, v) :: rest, key => if k = key then some v else cLookup rest key

/-- `int(counters.get(k, 0))` — the values are already integers when this
is evaluated, so the `int` coercion is the identity. -/
def cGet (cs : List (String × Int)) (k : String) : Int :=
  (cLookup cs k).getD 0

/-- `counters[k] = v` on an integer-valued counters dict. -/
def cSet : List (String × Int) → String → Int → List (String × Int)
  | [], key, v => [(key, v)]
  | (k, w) :: rest, key, v =>
      if k = key then (key, v) :: rest else (k, w) :: cSet rest key v

/-- An integer-valued counters dict embedded back into a JSON object. -/
def countersToJ (cs : List (String × Int)) : JVal :=
  .obj (cs.map fun p => (p.1, .num p.2))

/-- The integer-valued entries of a JSON object.  Where the allocator uses
this, `read_registry` has already normalized every value to an integer, so
no entry is dropped. -/
def countersOfJ : JVal → List (String × Int)
  | .obj l => l.filterMap fun p =>
      match p.2 with
      | .num n => some (p.1, n)
      | _ => none
  | _ => []

/-- Errors of the allocator.  In the source all of these are `ValueError`
or `TimeoutError` or `OSError`; the constructors record which raise site
(in the taxonomy of the specification) produced the error. -/
inductive SaError where
  | invalidKind (kind : String)
  | registryCorrupt (msg : String)
  | invalidArgument (msg : String)
  | lockTimeout
  | ioError
deriving Repr, DecidableEq

/-- The per-version normalization loop over `counters.items()`: every value
must convert to an integer, else the registry is corrupt.  (JSON object
keys are always strings, so the `isinstance(k, str)` skip in the source is
vacuous in this model.) -/
def normalizeCounters : List (String × JVal) → Option (List (String × Int))
  | [] => some []
  | (k, v) :: rest =>
      match pyInt v with
      | none => none
      | some n => (normalizeCounters rest).map fun r => (k, n) :: r

/-- `read_registry` (sa_id.py lines 91-124).  The argument is the parsed
content of the registry file, `none` when the file is absent.  Returns the
normalized document: `schema_version` forced to an integer, and for
version 1 `last_id` forced to an integer, for version ≥ 2 every counter
value forced to an integer. -/
def read_registry (file : Option JVal) : Except SaError (Option (List (String × JVal))) :=
  match file with
  | none => .ok none
  | some j =>
    match j with
    | .obj data =>
      let raw := (jGet data "schema_version").getD (.num 1)
      let raw := if pyTruthy raw then raw else .num 1
      match pyInt raw with
      | none => .error (.registryCorrupt "schema_version is not an integer")
      | some sv =>
        let data := jSet data "schema_version" (.num sv)
        if sv = 1 then
          match jGet data "last_id" with
          | none => .error (.registryCorrupt "registry is missing last_id")
          | some lv =>
            match pyInt lv with
            | none => .error (.registryCorrupt "registry last_id is not an integer")
            | some li => .ok (some (jSet data "last_id" (.num li)))
        else if sv ≥ 2 then
          match (jGet data "counters").getD .null with
          | .null => .ok (some (jSet data "counters" (countersToJ [])))
          | .obj cs =>
            match normalizeCounters cs with
            | none => .error (.registryCorrupt "registry counters value is not an integer")
            | some ncs => .ok (some (jSet data "counters" (countersToJ ncs)))
          | _ => .error (.registryCorrupt "registry counters must be an object")
        else .error (.registryCorrupt "registry schema_version is illegal")
    | _ => .error (.registryCorrupt "registry must be a JSON object")

/-- `KIND_CHOICES` (sa_id.py line 29). -/
def KIND_CHOICES : List String := ["chg", "spec"]

/-- `KIND_PREFIX[kind]` (sa_id.py line 34); only evaluated after `kind`
has been validated against `KIND_CHOICES`. -/
def prefixOfKind (kind : String) : String :=
  if kind = "chg" then "CHG" else "SPEC"

/-- A directory entry as seen by `Path.iterdir`. -/
structure DirEnt where
  name : String
  isDir : Bool
deriving Repr, DecidableEq

/-- The parts of the artifact tree inspected by `scan_max_ids`: the
`tasks` directory (absent or its children), the `.sa/history` directory
(absent, or its children each with their own children), and the texts of
the `specs/*/*/spec.md` files in glob order. -/
structure ArtifactTree where
  tasks : Option (List DirEnt)
  history : Option (List (DirEnt × List DirEnt))
  specTexts : List String

/-- An artifact tree with no tasks directory, no history and no specs. -/
def emptyTree : ArtifactTree := ⟨none, none, []⟩

/-- `LEADING_ID_RE = ^(?P<id>\d+)_` (sa_id.py line 40): the value of the
numeric prefix, `none` when the name does not match.  (`\d` also matches
non-ASCII digits in Python; artifact names never contain those.) -/
def leadingId (name : String) : Option Nat :=
  let ds := name.toList.takeWhile Char.isDigit
  if ds.isEmpty then none
  else
    match name.toList.drop ds.length with
    | '_' :: _ => some (digitsVal ds)
    | _ => none

/-- `STABLE_ID_RE = ^(?P<prefix>CHG|SPEC)-(?P<id>\d+)$` (sa_id.py line 41). -/
def stableIdMatch (s : String) : Option (String × Nat) :=
  match s.toList with
  | 'C' :: 'H' :: 'G' :: '-' :: rest =>
      if !rest.isEmpty && rest.all Char.isDigit then some ("CHG", digitsVal rest) else none
  | 'S' :: 'P' :: 'E' :: 'C' :: '-' :: rest =>
      if !rest.isEmpty && rest.all Char.isDigit then some ("SPEC", digitsVal rest) else none
  | _ => none

/-- Python `str.splitlines()` restricted to `\n` separators (the only line
separator in the documents this tool writes). -/
def pySplitlines (s : String) : List String :=
  if s = "" then []
  else
    let l := s.splitOn "\n"
    if s.endsWith "\n" then l.dropLast else l

/-- Strip matching characters from both ends of a string. -/
def stripEnds (p : Char → Bool) (s : String) : String :=
  ⟨((s.toList.dropWhile p).reverse.dropWhile p).reverse⟩

/-- Python `str.strip()` (whitespace; ASCII forms only, the only ones the
documents contain). -/
def pyStrip (s : String) : String :=
  stripEnds isPySpace s

/-- `extract_frontmatter_value` (sa_util.py): the value of `key:` inside
the leading `---`-delimited frontmatter block, if any. -/
def extract_frontmatter_value (markdown : String) (key : String) : Option String :=
  let lines := pySplitlines markdown
  match lines with
  | [] => none
  | first :: rest =>
    if pyStrip first ≠ "---" then none
    else
      match rest.findIdx? (fun l => pyStrip l = "---") with
      | none => none
      | some i =>
        let fmLines := rest.take i
        let pfx := key ++ ":"
        match fmLines.find? (fun l => pfx.isPrefixOf l) with
        | none => none
        | some line =>
            some (stripEnds (fun c => c = '\x27')
              (stripEnds (fun c => c = '"') (pyStrip (line.drop pfx.length))))

/-- The `bump_chg` loop over a list of directory entries: non-directories
are skipped, names matching `LEADING_ID_RE` raise the running maximum. -/
def bumpFold (start : Nat) (es : List DirEnt) : Nat :=
  es.foldl (fun acc e =>
    if e.isDir then
      match leadingId e.name with
      | some v => if v > acc then v else acc
      | none => acc
    else acc) start

/-- The result of `scan_max_ids`: the dict `{"chg": max_chg, "spec": max_spec}`. -/
structure ScanResult where
  chg : Nat
  spec : Nat
deriving Repr, DecidableEq

/-- `scan_max_ids` (sa_id.py lines 194-245): maximum numeric prefix among
first-level task directories (active and archived), and maximum declared
`SPEC-N` identifier among spec documents. -/
def scan_max_ids (t : ArtifactTree) : ScanResult :=
  let maxChg :=
    match t.tasks with
    | none => 0
    | some es => bumpFold 0 es
  let maxChg :=
    match t.history with
    | none => maxChg
    | some months =>
        months.foldl (fun acc m => if m.1.isDir then bumpFold acc m.2 else acc) maxChg
  let maxSpec := t.specTexts.foldl (fun acc text =>
    let docId := (extract_frontmatter_value text "id").getD ""
    match stableIdMatch docId with
    | some (p, v) => if p = "SPEC" then (if v > acc then v else acc) else acc
    | none => acc) 0
  ⟨maxChg, maxSpec⟩

/-- The registry document built when the registry file is absent
(sa_id.py lines 151-156), together with its counters dict. -/
def initRegistry (scanned : ScanResult) (now : String) :
    List (String × JVal) × List (String × Int) :=
  let counters : List (String × Int) :=
    [("chg", (scanned.chg : Int)), ("spec", (scanned.spec : Int))]
  ([("schema_version", .num 2), ("counters", countersToJ counters),
    ("updated_at", .str now)], counters)

/-- The version-1 migration block (sa_id.py lines 157-163): a fresh
version-2 document seeded with `chg = max(scanned_chg, last_id)` and
`spec = scanned_spec`; the old document (and with it `last_id`) is
discarded. -/
def migrate_v1 (scanned : ScanResult) (lastId : Int) (now : String) :
    List (String × JVal) × List (String × Int) :=
  let counters : List (String × Int) :=
    [("chg", max (scanned.chg : Int) lastId), ("spec", (scanned.spec : Int))]
  ([("schema_version", .num 2), ("counters", countersToJ counters),
    ("updated_at", .str now)], counters)

/-- The version-≥2 reconciliation block (sa_id.py lines 164-169): raise the
`chg` and `spec` counters to at least the scanned maxima, re-store the
normalized `schema_version` and the counters dict; every other field of
the document is untouched. -/
def reconcile_v2 (data : List (String × JVal)) (scanned : ScanResult) :
    List (String × JVal) × List (String × Int) :=
  let cv := (jGet data "counters").getD .null
  let cv := if pyTruthy cv then cv else .obj []
  let cs := countersOfJ cv
  let cs := cSet cs "chg" (max (cGet cs "chg") (scanned.chg : Int))
  let cs := cSet cs "spec" (max (cGet cs "spec") (scanned.spec : Int))
  let svv := (jGet data "schema_version").getD (.num 2)
  let svv := if pyTruthy svv then svv else .num 2
  let sv := (pyInt svv).getD 0
  let doc := jSet data "schema_version" (.num sv)
  let doc := jSet doc "counters" (countersToJ cs)
  (doc, cs)

/-- `int(registry.get("last_id", 0))` (sa_id.py line 158); `read_registry`
guarantees the stored value is an integer, so the fallback is dead. -/
def lastIdOf (data : List (String × JVal)) : Int :=
  (pyInt ((jGet data "last_id").getD (.num 0))).getD 0

/-- Decimal digit character for a value below 10. -/
def digitChar (n : Nat) : Char :=
  if n = 0 then '0' else if n = 1 then '1' else if n = 2 then '2'
  else if n = 3 then '3' else if n = 4 then '4' else if n = 5 then '5'
  else if n = 6 then '6' else if n = 7 then '7' else if n = 8 then '8'
  else if n = 9 then '9' else '*'

/-- Decimal digits of a natural number, most significant first; the fuel
argument strictly dominates the number of divisions by ten. -/
def natDigitsAux : Nat → Nat → List Char
  | 0, _ => []
  | fuel + 1, n =>
      if n < 10 then [digitChar n]
      else natDigitsAux fuel (n / 10) ++ [digitChar (n % 10)]

/-- Decimal rendering of a natural number. -/
def natDigits (n : Nat) : List Char := natDigitsAux (n + 1) n

/-- Python `str()` of an integer. -/
def pyStr (i : Int) : String :=
  if i < 0 then ⟨'-' :: natDigits (-i).toNat⟩ else ⟨natDigits i.toNat⟩

/-- Python `str.zfill(width)`: left-pad with zeros up to `width`, keeping a
leading sign in front; never truncates. -/
def pyZfill (s : String) (width : Int) : String :=
  if width ≤ (s.length : Int) then s
  else
    let padLen := (width - (s.length : Int)).toNat
    match s.toList with
    | '-' :: rest => ⟨'-' :: (List.replicate padLen '0' ++ rest)⟩
    | '+' :: rest => ⟨'+' :: (List.replicate padLen '0' ++ rest)⟩
    | cs => ⟨List.replicate padLen '0' ++ cs⟩

/-- The arguments of `allocate_next_id` that affect the model (`root`,
`registry_relpath` and `timeout_sec` only pick paths and the real-time
bound and are not modelled). -/
structure AllocArgs where
  pad : Int
  dryRun : Bool
  scan : Bool
  kind : String
deriving Repr, DecidableEq

/-- The dict returned by `allocate_next_id` (sa_id.py lines 182-189);
`registry_path` is omitted, being a constant of the call. -/
structure AllocResult where
  id : Int
  padded_id : String
  stable_id : String
  kind : String
  dry_run : Bool
deriving Repr, DecidableEq

/-- Observable filesystem actions of one allocation call, in order:
creation of the lock file, opening of the registry file, the atomic
rewrite of the registry, deletion of the lock file. -/
inductive Event where
  | acquireLock
  | releaseLock
  | readRegistry
  | writeRegistry
deriving Repr, DecidableEq

/-- The filesystem state an allocation call sees: the parsed content of the
registry file (`none` when absent), whether the lock file exists, whether
the atomic rewrite of the registry will fail (for example on a full disk),
and the artifact tree the scanner walks. -/
structure FS where
  registry : Option JVal
  lockHeld : Bool
  writeFails : Bool
  tree : ArtifactTree

/-- sa_id.py lines 142-175: kind validation happens before this is
called; this covers registry load, migration or reconciliation, and the
next-id computation, returning the working document, its counters dict,
the next id and its padded and stable renderings. -/
def computeNext (registryFile : Option JVal) (tree : ArtifactTree) (a : AllocArgs)
    (now : String) :
    Except SaError (List (String × JVal) × List (String × Int) × Int × String × String) :=
  match read_registry registryFile with
  | .error e => .error e
  | .ok data? =>
    let scanned : ScanResult := if a.scan then scan_max_ids tree else ⟨0, 0⟩
    let dc : List (String × JVal) × List (String × Int) :=
      match data? with
      | none => initRegistry scanned now
      | some data =>
        -- `int(registry.get("schema_version", 1)) == 1`; read_registry has
        -- already stored an integer there, so `pyInt` cannot fail here.
        if pyInt ((jGet data "schema_version").getD (.num 1)) = some 1 then
          migrate_v1 scanned (lastIdOf data) now
        else
          reconcile_v2 data scanned
    let current : Int := cGet dc.2 a.kind
    let next : Int := current + 1
    let padded := pyZfill (pyStr next) a.pad
    let stable := prefixOfKind a.kind ++ "-" ++ padded
    .ok (dc.1, dc.2, next, padded, stable)

/-- The guarded section of `allocate_next_id` (sa_id.py lines 141-189,
the body of the `try`): kind validation, load/migrate/reconcile, next-id
computation, and — unless a dry run — the counter bump and the atomic
persist.  Returns the result, the new registry file content, and the
registry-file events. -/
def allocateLocked (fs : FS) (a : AllocArgs) (now : String) :
    Except SaError AllocResult × Option JVal × List Event :=
  if a.kind ∈ KIND_CHOICES then
    let readEvs : List Event := if fs.registry.isSome then [.readRegistry] else []
    match computeNext fs.registry fs.tree a now with
    | .error e => (.error e, fs.registry, readEvs)
    | .ok (doc, counters, next, padded, stable) =>
      let result : AllocResult :=
        ⟨next, padded, stable, a.kind, a.dryRun⟩
      if a.dryRun then (.ok result, fs.registry, readEvs)
      else
        let counters2 := cSet counters a.kind next
        let doc2 := jSet (jSet doc "counters" (countersToJ counters2))
          "updated_at" (.str now)
        if fs.writeFails then (.error .ioError, fs.registry, readEvs)
        else (.ok result, some (.obj doc2), readEvs ++ [.writeRegistry])
  else (.error (.invalidKind a.kind), fs.registry, [])

/-- `allocate_next_id` (sa_id.py lines 127-191).  Lock acquisition comes
first; when the lock file already exists the spin-wait can only time out
in this sequential model (the holder never releases during the call).
The `finally` block releases the lock on every exit path.  The `now`
parameter stands for `utc_now_iso()`. -/
def allocate_next_id (fs : FS) (a : AllocArgs) (now : String) :
    Except SaError AllocResult × FS × List Event :=
  if fs.lockHeld then (.error .lockTimeout, fs, [])
  else
    let body := allocateLocked { fs with lockHeld := true } a now
    (body.1, { fs with registry := body.2.1, lockHeld := false },
      .acquireLock :: (body.2.2 ++ [.releaseLock]))

/-- `n` successive calls of `allocate_next_id` with the same arguments,
collecting the results and threading the filesystem state. -/
def runAllocs (fs : FS) (a : AllocArgs) (now : String) : Nat → List (Except SaError AllocResult) × FS
  | 0 => ([], fs)
  | n + 1 =>
      let step := allocate_next_id fs a now
      let rest := runAllocs step.2.1 a now n
      (step.1 :: rest.1, rest.2)

/-- The counter persisted for a kind, read back from the on-disk registry
document. -/
def persistedCounter (fs : FS) (kind : String) : Option Int :=
  match fs.registry with
  | some (.obj doc) =>
    match jGet doc "counters" with
    | some (.obj cs) =>
      match jGet cs kind with
      | some (.num n) => some n
      | _ => none
    | _ => none
  | _ => none

/-- The raw id of a successful allocation result, `none` on an error. -/
def resultId (r : Except SaError AllocResult) : Option Int :=
  match r with
  | .ok a => some a.id
  | .error _ => none

/-- Specification-side reading of the scanner for the `chg` kind: the
maximum numeric name prefix over the directory entries, 0 when none
matches. -/
def chgMax (es : List DirEnt) : Nat :=
  (es.filterMap fun e => if e.isDir then leadingId e.name else none).foldr max 0

/-- `SLUG_RE.fullmatch` (sa_id.py line 39): kebab-case of lowercase
ASCII letters and digits. -/
def slugOk (s : String) : Bool :=
  (s.splitOn "-").all fun p =>
    !p.isEmpty && p.toList.all fun c => ('a' ≤ c && c ≤ 'z') || ('0' ≤ c && c ≤ '9')

/-- `normalize_slug` (sa_id.py lines 253-257). -/
def normalize_slug (slug : String) : Except SaError String :=
  let s := pyStrip slug
  if slugOk s then .ok s else .error (.invalidArgument "slug must be kebab-case")

/-- The parsed command line of sa_id.py that the model uses.  `argparse`
already restricts `--kind` to `KIND_CHOICES` and `--type` to
`TYPE_CHOICES`; `--root`, `--registry`, `--timeout` and `--json` only pick
paths, the lock timeout and the output format. -/
structure CliArgs where
  kind : String
  pad : Int
  dryRunFlag : Bool
  scanFlag : Bool
  noScanFlag : Bool
  ctype : Option String
  slug : Option String
deriving Repr, DecidableEq

/-- The output of a successful `main` run: the allocation, the composed
`name` (when `--type`/`--slug` were given) and the line printed in
non-JSON mode. -/
structure CliOut where
  allocation : AllocResult
  name : Option String
  printed : String
deriving Repr, DecidableEq

/-- `main` (sa_id.py lines 288-343) after argument parsing: flag
resolution and input validation in source order, then the allocation and
the output composition. -/
def mainModel (args : CliArgs) (fs : FS) (now : String) : Except SaError CliOut × FS :=
  let scan := if args.scanFlag then true else if args.noScanFlag then false else true
  if args.pad ≤ 0 then
    (.error (.invalidArgument "pad must be a positive integer"), fs)
  else if (args.ctype.isNone) ≠ (args.slug.isNone) then
    (.error (.invalidArgument "type and slug must be given together"), fs)
  else if args.kind ≠ "chg" && (args.ctype.isSome || args.slug.isSome) then
    (.error (.invalidArgument "type and slug are only for kind chg"), fs)
  else
    let slugR : Except SaError (Option String) :=
      match args.slug with
      | none => .ok none
      | some s => (normalize_slug s).map some
    match slugR with
    | .error e => (.error e, fs)
    | .ok slug? =>
      let out := allocate_next_id fs
        ⟨args.pad, args.dryRunFlag, scan, args.kind⟩ now
      match out.1 with
      | .error e => (.error e, out.2.1)
      | .ok alloc =>
        let name : Option String :=
          match args.ctype, slug? with
          | some t, some sl => some (alloc.padded_id ++ "_" ++ t ++ "_" ++ sl)
          | _, _ => none
        (.ok ⟨alloc, name, name.getD alloc.padded_id⟩, out.2.1)

/-! ### Dictionary lemmas -/

theorem jGet_jSet_self (d : List (String × JVal)) (k : String) (v : JVal) :
    jGet (jSet d k v) k = some v := by
  induction d with
  | nil => simp [jGet, jSet]
  | cons p rest ih =>
      by_cases h : p.1 = k
      · simp [jGet, jSet, h]
      · simp [jGet, jSet, h, ih]

theorem jGet_jSet_ne (d : List (String × JVal)) (k k2 : String) (v : JVal)
    (h : k ≠ k2) : jGet (jSet d k v) k2 = jGet d k2 := by
  induction d with
  | nil => simp [jGet, jSet, h]
  | cons p rest ih =>
      by_cases hp : p.1 = k
      · simp [jGet, jSet, hp, h]
      · simp only [jSet, if_neg hp, jGet]
        by_cases hp2 : p.1 = k2 <;> simp [hp2, ih]

theorem cLookup_cSet_self (cs : List (String × Int)) (k : String) (v : Int) :
    cLookup (cSet cs k v) k = some v := by
  induction cs with
  | nil => simp [cLookup, cSet]
  | cons p rest ih =>
      by_cases h : p.1 = k
      · simp [cLookup, cSet, h]
      · simp [cLookup, cSet, h, ih]

theorem cLookup_cSet_ne (cs : List (String × Int)) (k k2 : String) (v : Int)
    (h : k ≠ k2) : cLookup (cSet cs k v) k2 = cLookup cs k2 := by
  induction cs with
  | nil => simp [cLookup, cSet, h]
  | cons p rest ih =>
      by_cases hp : p.1 = k
      · simp [cLookup, cSet, hp, h]
      · simp only [cSet, if_neg hp, cLookup]
        by_cases hp2 : p.1 = k2 <;> simp [hp2, ih]

theorem countersOfJ_countersToJ (cs : List (String × Int)) :
    countersOfJ (countersToJ cs) = cs := by
  induction cs with
  | nil => simp [countersOfJ, countersToJ]
  | cons p rest ih =>
      simpa [countersOfJ, countersToJ] using ih

theorem jGet_map_num (cs : List (String × Int)) (k : String) :
    jGet (cs.map fun p => (p.1, JVal.num p.2)) k = (cLookup cs k).map JVal.num := by
  induction cs with
  | nil => simp [jGet, cLookup]
  | cons p rest ih =>
      by_cases h : p.1 = k
      · simp [jGet, cLookup, h]
      · simpa [jGet, cLookup, h] using ih

theorem countersOfJ_truthy (ncs : List (String × Int)) :
    countersOfJ (if pyTruthy (countersToJ ncs) then countersToJ ncs else .obj []) = ncs := by
  by_cases h : ncs = []
  · subst h
    simp [countersToJ, pyTruthy, countersOfJ]
  · rw [if_pos]
    · exact countersOfJ_countersToJ ncs
    · cases ncs with
      | nil => exact absurd rfl h
      | cons p rest => simp [countersToJ, pyTruthy]

/-! ### Error-shape lemmas -/

theorem read_registry_error_corrupt (f : Option JVal) (e : SaError)
    (h : read_registry f = .error e) : ∃ m, e = .registryCorrupt m := by
  unfold read_registry at h
  dsimp only at h
  repeat' split at h
  all_goals first
    | exact ⟨_, (Except.error.inj h).symm⟩
    | simp_all

theorem computeNext_error_corrupt (f : Option JVal) (t : ArtifactTree)
    (a : AllocArgs) (now : String) (e : SaError)
    (h : computeNext f t a now = .error e) : ∃ m, e = .registryCorrupt m := by
  unfold computeNext at h
  split at h
  · exact read_registry_error_corrupt f e (by simp_all)
  · simp_all

theorem allocateLocked_no_timeout (fs : FS) (a : AllocArgs) (now : String) :
    (allocateLocked fs a now).1 ≠ .error .lockTimeout := by
  unfold allocateLocked
  split
  · cases hc : computeNext fs.registry fs.tree a now with
    | error e =>
        obtain ⟨m, rfl⟩ := computeNext_error_corrupt _ _ _ _ _ hc
        simp
    | ok v =>
        obtain ⟨doc, counters, next, padded, stable⟩ := v
        simp only
        split
        · simp
        · split <;> simp
  · simp

theorem fs_eta (fs : FS) (h : fs.lockHeld = false) :
    ⟨fs.registry, false, fs.writeFails, fs.tree⟩ = fs := by
  cases fs
  simp_all

/-! ### Claim C7 (corrected) -/

/-- Claim C7, counterexample to the original statement: a call with an
unrecognized kind does fail with InvalidKind, but the lock file is created
first — the event trace of the call contains the lock acquisition, so the
failure does not happen "before acquiring the lock". -/
theorem invalid_kind_lock_created :
    (allocate_next_id ⟨none, false, false, emptyTree⟩ ⟨6, false, false, "bogus"⟩ "T").1
      = .error (.invalidKind "bogus") ∧
    Event.acquireLock ∈
      (allocate_next_id ⟨none, false, false, emptyTree⟩ ⟨6, false, false, "bogus"⟩ "T").2.2 := by
  refine ⟨rfl, ?_⟩
  have h : (allocate_next_id ⟨none, false, false, emptyTree⟩ ⟨6, false, false, "bogus"⟩ "T").2.2
      = [Event.acquireLock, Event.releaseLock] := rfl
  rw [h]
  exact List.mem_cons_self _ _

/-- Claim C7, amended: an allocation with an unrecognized kind fails with
InvalidKind after acquiring the lock but before any registry access — the
registry file is neither read nor written, the filesystem state is left
unchanged, and the lock is released before the error propagates (its trace
is exactly acquire followed by release). -/
theorem invalid_kind_fails_after_lock (fs : FS) (a : AllocArgs) (now : String)
    (hlock : fs.lockHeld = false) (hk : a.kind ∉ KIND_CHOICES) :
    (allocate_next_id fs a now).1 = .error (.invalidKind a.kind) ∧
    (allocate_next_id fs a now).2.1 = fs ∧
    (allocate_next_id fs a now).2.2 = [.acquireLock, .releaseLock] := by
  have hbody : allocateLocked { fs with lockHeld := true } a now
      = (.error (.invalidKind a.kind), fs.registry, []) := by
    unfold allocateLocked
    rw [if_neg hk]
  unfold allocate_next_id
  rw [if_neg (by simp [hlock]), hbody]
  exact ⟨rfl, fs_eta fs hlock, rfl⟩

/-- Claim C7 witness: the amended theorem at a concrete input. -/
theorem invalid_kind_fails_after_lock_witness :
    (allocate_next_id ⟨none, false, false, emptyTree⟩ ⟨6, true, true, "task"⟩ "T").1
      = .error (.invalidKind "task") ∧
    (allocate_next_id ⟨none, false, false, emptyTree⟩ ⟨6, true, true, "task"⟩ "T").2.2
      = [.acquireLock, .releaseLock] := by
  have h := invalid_kind_fails_after_lock ⟨none, false, false, emptyTree⟩
    ⟨6, true, true, "task"⟩ "T" rfl (by decide)
  exact ⟨h.1, h.2.2⟩

/-! ### Claim C2 -/

/-- Claim C2: every call that acquires the lock releases it on every exit
path: the trace starts with the acquisition and ends with the release, the
lock file does not survive the call, and a subsequent allocation is never
refused with a lock timeout because of a leftover lock. -/
theorem lock_released_on_all_paths (fs : FS) (a : AllocArgs) (now : String)
    (hlock : fs.lockHeld = false) :
    ((allocate_next_id fs a now).2.2).head? = some .acquireLock ∧
    ((allocate_next_id fs a now).2.2).getLast? = some .releaseLock ∧
    (allocate_next_id fs a now).2.1.lockHeld = false ∧
    ∀ (a2 : AllocArgs) (now2 : String),
      (allocate_next_id (allocate_next_id fs a now).2.1 a2 now2).1 ≠ .error .lockTimeout := by
  have hred : allocate_next_id fs a now
      = ((allocateLocked { fs with lockHeld := true } a now).1,
         { fs with registry := (allocateLocked { fs with lockHeld := true } a now).2.1,
                   lockHeld := false },
         .acquireLock :: ((allocateLocked { fs with lockHeld := true } a now).2.2
           ++ [.releaseLock])) := by
    unfold allocate_next_id
    rw [if_neg (by simp [hlock])]
  refine ⟨?_, ?_, ?_, ?_⟩
  · rw [hred]
    rfl
  · rw [hred]
    show (Event.acquireLock :: (_ ++ [Event.releaseLock])).getLast? = some Event.releaseLock
    rw [← List.cons_append, List.getLast?_concat]
  · rw [hred]
  · intro a2 now2
    rw [hred]
    show (allocate_next_id ⟨_, false, _, _⟩ a2 now2).1 ≠ .error .lockTimeout
    unfold allocate_next_id
    rw [if_neg (by simp)]
    exact allocateLocked_no_timeout _ a2 now2

/-- Claim C2 witness: the theorem at a concrete input. -/
theorem lock_released_on_all_paths_witness :
    ((allocate_next_id ⟨none, false, false, emptyTree⟩ ⟨6, false, false, "chg"⟩ "T").2.2).getLast?
      = some .releaseLock ∧
    (allocate_next_id ⟨none, false, false, emptyTree⟩ ⟨6, false, false, "chg"⟩ "T").2.1.lockHeld
      = false := by
  have h := lock_released_on_all_paths ⟨none, false, false, emptyTree⟩
    ⟨6, false, false, "chg"⟩ "T" rfl
  exact ⟨h.2.1, h.2.2.1⟩

/-! ### Claim C8 -/

/-- Claim C8: a call of the command-line entry point with a non-positive
pad width fails with InvalidArgument before any allocation work — no
identifier is emitted and the filesystem is untouched. -/
theorem nonpositive_pad_rejected (args : CliArgs) (fs : FS) (now : String)
    (hp : args.pad ≤ 0) :
    mainModel args fs now = (.error (.invalidArgument "pad must be a positive integer"), fs) := by
  unfold mainModel
  dsimp only
  rw [if_pos hp]

/-- Claim C8 witness: the theorem at pad zero. -/
theorem nonpositive_pad_rejected_witness :
    mainModel ⟨"chg", 0, false, false, false, none, none⟩ ⟨none, false, false, emptyTree⟩ "T"
      = (.error (.invalidArgument "pad must be a positive integer"),
         ⟨none, false, false, emptyTree⟩) :=
  nonpositive_pad_rejected ⟨"chg", 0, false, false, false, none, none⟩
    ⟨none, false, false, emptyTree⟩ "T" (by norm_num)

/-! ### Claim C6 (corrected) -/

/-- The schema version `read_registry` resolves for a document:
`int(data.get("schema_version", 1) or 1)`. -/
def svOf (d : List (String × JVal)) : Option Int :=
  pyInt
    (if pyTruthy ((jGet d "schema_version").getD (.num 1)) then
      (jGet d "schema_version").getD (.num 1)
    else .num 1)

/-- Claim C6, counterexample to the original statement: a version-1
registry whose last_id is the negative integer -3 is accepted by
`read_registry` — there is no non-negativity check. -/
theorem v1_negative_last_id_accepted :
    read_registry (some (.obj [("schema_version", .num 1), ("last_id", .num (-3))]))
      = .ok (some [("schema_version", .num 1), ("last_id", .num (-3))]) := by
  rfl

/-- Claim C6, amended: loading a version-1 registry fails with
RegistryCorrupt exactly when the last_id field is missing or is not
convertible to an integer; a present integer last_id — negative ones
included — is accepted and normalized in place. -/
theorem v1_last_id_validation (d : List (String × JVal)) (hsv : svOf d = some 1) :
    ((∃ m, read_registry (some (.obj d)) = .error (.registryCorrupt m)) ↔
      (jGet d "last_id" = none ∨ pyInt ((jGet d "last_id").getD .null) = none)) ∧
    ∀ L : Int, jGet d "last_id" = some (.num L) →
      read_registry (some (.obj d))
        = .ok (some (jSet (jSet d "schema_version" (.num 1)) "last_id" (.num L))) := by
  unfold svOf at hsv
  have hred : read_registry (some (.obj d))
      = (match jGet (jSet d "schema_version" (.num 1)) "last_id" with
        | none => .error (.registryCorrupt "registry is missing last_id")
        | some lv =>
          match pyInt lv with
          | none => .error (.registryCorrupt "registry last_id is not an integer")
          | some li => .ok (some (jSet (jSet d "schema_version" (.num 1)) "last_id" (.num li)))) := by
    unfold read_registry
    dsimp only
    rw [hsv]
    simp
  have hget : jGet (jSet d "schema_version" (.num 1)) "last_id" = jGet d "last_id" :=
    jGet_jSet_ne d "schema_version" "last_id" (.num 1) (by decide)
  rw [hget] at hred
  constructor
  · cases hl : jGet d "last_id" with
    | none =>
        rw [hl] at hred
        exact ⟨fun _ => Or.inl rfl, fun _ => ⟨"registry is missing last_id", hred⟩⟩
    | some lv =>
        rw [hl] at hred
        dsimp only at hred
        cases hi : pyInt lv with
        | none =>
            rw [hi] at hred
            exact ⟨fun _ => Or.inr (by simp [hi]),
              fun _ => ⟨"registry last_id is not an integer", hred⟩⟩
        | some li =>
            rw [hi] at hred
            constructor
            · rintro ⟨m, hm⟩
              rw [hred] at hm
              exact absurd hm (by simp)
            · rintro (hc | hc)
              · exact absurd hc (by simp)
              · rw [Option.getD_some, hi] at hc
                exact absurd hc (by simp)
  · intro L hL
    rw [hL] at hred
    simpa [pyInt] using hred

/-- Claim C6 witness: the amended theorem applied to a version-1 registry
with the concrete negative last_id -7, which loads successfully. -/
theorem v1_last_id_validation_witness :
    read_registry (some (.obj [("schema_version", .num 1), ("last_id", .num (-7))]))
      = .ok (some (jSet (jSet [("schema_version", .num 1), ("last_id", .num (-7))]
          "schema_version" (.num 1)) "last_id" (.num (-7)))) :=
  (v1_last_id_validation [("schema_version", .num 1), ("last_id", .num (-7))] rfl).2 (-7) rfl

/-! ### Claim C5 -/

theorem allocateLocked_dryRun_registry (fs : FS) (a : AllocArgs) (now : String)
    (hd : a.dryRun = true) : (allocateLocked fs a now).2.1 = fs.registry := by
  unfold allocateLocked
  repeat' split
  all_goals first
    | rfl
    | simp_all

/-- The components of `computeNext` other than the working document do not
depend on the timestamp: the counters, the next id and its renderings are
the same for any two call times. -/
theorem computeNext_now_indep (f : Option JVal) (t : ArtifactTree) (a : AllocArgs)
    (n1 n2 : String) :
    (computeNext f t a n1).map (fun x => x.2) = (computeNext f t a n2).map (fun x => x.2) := by
  unfold computeNext
  cases read_registry f with
  | error e => rfl
  | ok data? =>
      cases data? with
      | none => rfl
      | some data =>
          dsimp only
          split <;> rfl

/-- `computeNext` does not inspect the dry-run flag. -/
theorem computeNext_dryRun_indep (f : Option JVal) (t : ArtifactTree) (p : Int)
    (d1 d2 s : Bool) (k : String) (n : String) :
    computeNext f t ⟨p, d1, s, k⟩ n = computeNext f t ⟨p, d2, s, k⟩ n := rfl

/-- Claim C5: a dry-run allocation leaves the filesystem unchanged — the
registry, the lock and the artifact tree are exactly as before — and a
subsequent non-dry-run call against the same state returns the same raw
id, padded id and stable id the dry run returned. -/
theorem dry_run_no_mutation (fs : FS) (pad : Int) (scan : Bool) (kind : String)
    (now now2 : String) (hlock : fs.lockHeld = false) (hw : fs.writeFails = false) :
    (allocate_next_id fs ⟨pad, true, scan, kind⟩ now).2.1 = fs ∧
    ∀ r, (allocate_next_id fs ⟨pad, true, scan, kind⟩ now).1 = .ok r →
      ∃ r2, (allocate_next_id fs ⟨pad, false, scan, kind⟩ now2).1 = .ok r2 ∧
        r2.id = r.id ∧ r2.padded_id = r.padded_id ∧ r2.stable_id = r.stable_id := by
  have hredT : allocate_next_id fs ⟨pad, true, scan, kind⟩ now
      = ((allocateLocked ⟨fs.registry, true, fs.writeFails, fs.tree⟩
            ⟨pad, true, scan, kind⟩ now).1,
         ⟨(allocateLocked ⟨fs.registry, true, fs.writeFails, fs.tree⟩
            ⟨pad, true, scan, kind⟩ now).2.1, false, fs.writeFails, fs.tree⟩,
         .acquireLock :: ((allocateLocked ⟨fs.registry, true, fs.writeFails, fs.tree⟩
            ⟨pad, true, scan, kind⟩ now).2.2 ++ [.releaseLock])) := by
    unfold allocate_next_id
    rw [if_neg (by simp [hlock])]
  have hredF : allocate_next_id fs ⟨pad, false, scan, kind⟩ now2
      = ((allocateLocked ⟨fs.registry, true, fs.writeFails, fs.tree⟩
            ⟨pad, false, scan, kind⟩ now2).1,
         ⟨(allocateLocked ⟨fs.registry, true, fs.writeFails, fs.tree⟩
            ⟨pad, false, scan, kind⟩ now2).2.1, false, fs.writeFails, fs.tree⟩,
         .acquireLock :: ((allocateLocked ⟨fs.registry, true, fs.writeFails, fs.tree⟩
            ⟨pad, false, scan, kind⟩ now2).2.2 ++ [.releaseLock])) := by
    unfold allocate_next_id
    rw [if_neg (by simp [hlock])]
  constructor
  · rw [hredT]
    show (⟨(allocateLocked ⟨fs.registry, true, fs.writeFails, fs.tree⟩
        ⟨pad, true, scan, kind⟩ now).2.1, false, fs.writeFails, fs.tree⟩ : FS) = fs
    rw [allocateLocked_dryRun_registry _ _ _ rfl]
    exact fs_eta fs hlock
  · intro r hr
    rw [hredT] at hr
    replace hr : (allocateLocked ⟨fs.registry, true, fs.writeFails, fs.tree⟩
        ⟨pad, true, scan, kind⟩ now).1 = .ok r := hr
    rw [hredF]
    show ∃ r2, (allocateLocked ⟨fs.registry, true, fs.writeFails, fs.tree⟩
        ⟨pad, false, scan, kind⟩ now2).1 = .ok r2 ∧
      r2.id = r.id ∧ r2.padded_id = r.padded_id ∧ r2.stable_id = r.stable_id
    unfold allocateLocked at hr ⊢
    by_cases hk : kind ∈ KIND_CHOICES
    · rw [if_pos hk] at hr ⊢
      dsimp only at hr ⊢
      cases hc : computeNext fs.registry fs.tree ⟨pad, true, scan, kind⟩ now with
      | error e => rw [hc] at hr; exact absurd hr (by simp)
      | ok v =>
          rw [hc] at hr
          obtain ⟨doc, counters, next, padded, stable⟩ := v
          dsimp only at hr
          rw [if_pos rfl] at hr
          have hr2 : r = ⟨next, padded, stable, kind, true⟩ :=
            (Except.ok.inj hr).symm
          have hcn := computeNext_now_indep fs.registry fs.tree ⟨pad, true, scan, kind⟩ now now2
          rw [hc, computeNext_dryRun_indep fs.registry fs.tree pad true false scan kind now2]
            at hcn
          cases hc2 : computeNext fs.registry fs.tree ⟨pad, false, scan, kind⟩ now2 with
          | error e => rw [hc2] at hcn; exact absurd hcn (by simp [Except.map])
          | ok v2 =>
              rw [hc2] at hcn
              obtain ⟨doc2, counters2, next2, padded2, stable2⟩ := v2
              simp only [Except.map, Except.ok.injEq, Prod.mk.injEq] at hcn
              obtain ⟨hceq, hneq, hpeq, hseq⟩ := hcn
              refine ⟨⟨next2, padded2, stable2, kind, false⟩, ?_, ?_⟩
              · dsimp only
                rw [if_neg (by simp : ¬(false = true)), if_neg (by simp [hw])]
              · rw [hr2]
                exact ⟨hneq.symm, hpeq.symm, hseq.symm⟩
    · rw [if_neg hk] at hr
      exact absurd hr (by simp)

/-- Claim C5 witness: the theorem at a concrete state. -/
theorem dry_run_no_mutation_witness :
    (allocate_next_id ⟨none, false, false, emptyTree⟩ ⟨6, true, false, "chg"⟩ "T").2.1
      = ⟨none, false, false, emptyTree⟩ := by
  have h := dry_run_no_mutation ⟨none, false, false, emptyTree⟩ 6 false "chg" "T" "T2" rfl rfl
  exact h.1

/-! ### Claim C10 -/

theorem digitChar_isDigit (n : Nat) (h : n < 10) : (digitChar n).isDigit := by
  interval_cases n <;> decide

theorem natDigitsAux_all_digits (fuel : Nat) :
    ∀ (n : Nat) (c : Char), c ∈ natDigitsAux fuel n → c.isDigit := by
  induction fuel with
  | zero => intro n c hc; simp [natDigitsAux] at hc
  | succ f ih =>
      intro n c hc
      unfold natDigitsAux at hc
      split at hc
      · next h10 =>
          simp only [List.mem_singleton] at hc
          exact hc ▸ digitChar_isDigit n h10
      · rcases List.mem_append.mp hc with h1 | h2
        · exact ih _ _ h1
        · simp only [List.mem_singleton] at h2
          exact h2 ▸ digitChar_isDigit _ (Nat.mod_lt n (by norm_num))

theorem natDigitsAux_ne_nil (fuel n : Nat) (h : fuel ≠ 0) :
    natDigitsAux fuel n ≠ [] := by
  cases fuel with
  | zero => exact absurd rfl h
  | succ f =>
      unfold natDigitsAux
      split
      · simp
      · simp

theorem natDigits_head_digit (n : Nat) :
    ∃ c t, natDigits n = c :: t ∧ c.isDigit := by
  cases hd : natDigits n with
  | nil => exact absurd hd (natDigitsAux_ne_nil (n + 1) n (by omega))
  | cons c t =>
      refine ⟨c, t, rfl, ?_⟩
      exact natDigitsAux_all_digits (n + 1) n c (by rw [natDigits] at hd; rw [hd]; simp)

theorem pyStr_pos (i : Int) (h : 1 ≤ i) :
    (pyStr i).toList = natDigits i.toNat := by
  unfold pyStr
  rw [if_neg (by omega)]
  rfl

/-- The head of the decimal rendering of a positive integer is a digit,
so `zfill` applies its no-sign branch. -/
theorem pyZfill_pos (i : Int) (w : Int) (h : 1 ≤ i) :
    (pyZfill (pyStr i) w).toList
      = List.replicate (w - ((pyStr i).length : Int)).toNat '0' ++ (pyStr i).toList := by
  obtain ⟨c, t, hct, hcd⟩ := natDigits_head_digit i.toNat
  have hs : (pyStr i).toList = c :: t := by rw [pyStr_pos i h, hct]
  unfold pyZfill
  split
  · next hle =>
      have : (w - ((pyStr i).length : Int)).toNat = 0 := by omega
      rw [this]
      simp
  · next hgt =>
      rw [hs]
      split
      · next heq =>
          obtain ⟨hc1, -⟩ := List.cons.inj heq
          rw [hc1] at hcd
          exact absurd hcd (by decide)
      · next heq =>
          obtain ⟨hc1, -⟩ := List.cons.inj heq
          rw [hc1] at hcd
          exact absurd hcd (by decide)
      · rfl

theorem pyZfill_le (s : String) (w : Int) (h : w ≤ (s.length : Int)) :
    pyZfill s w = s := by
  unfold pyZfill
  rw [if_pos h]

theorem pyZfill_pos_length (i : Int) (w : Int) (h : 1 ≤ i) :
    (pyZfill (pyStr i) w).length = max w.toNat (pyStr i).length := by
  have h1 : (pyZfill (pyStr i) w).length = (pyZfill (pyStr i) w).toList.length := rfl
  have h2 : (pyStr i).length = (pyStr i).toList.length := rfl
  rw [h1, pyZfill_pos i w h, List.length_append, List.length_replicate]
  omega

theorem cGet_initRegistry_nonneg (s : ScanResult) (now : String) (k : String)
    (hk : k = "chg" ∨ k = "spec") : 0 ≤ cGet (initRegistry s now).2 k := by
  rcases hk with rfl | rfl <;> simp [initRegistry, cGet, cLookup]

theorem cGet_migrate_nonneg (s : ScanResult) (L : Int) (now : String) (k : String)
    (hk : k = "chg" ∨ k = "spec") : 0 ≤ cGet (migrate_v1 s L now).2 k := by
  rcases hk with rfl | rfl
  · have hc : cGet (migrate_v1 s L now).2 "chg" = max (s.chg : Int) L := by
      simp [migrate_v1, cGet, cLookup]
    rw [hc]
    exact le_max_of_le_left (Int.natCast_nonneg _)
  · simp [migrate_v1, cGet, cLookup]

theorem cGet_reconcile_nonneg (data : List (String × JVal)) (s : ScanResult) (k : String)
    (hk : k = "chg" ∨ k = "spec") : 0 ≤ cGet (reconcile_v2 data s).2 k := by
  rcases hk with rfl | rfl
  · unfold reconcile_v2
    dsimp only
    rw [cGet, cLookup_cSet_ne _ "spec" "chg" _ (by decide), cLookup_cSet_self]
    simp only [Option.getD_some]
    exact le_trans (Int.natCast_nonneg _) (le_max_right _ _)
  · unfold reconcile_v2
    dsimp only
    rw [cGet, cLookup_cSet_self]
    simp only [Option.getD_some]
    exact le_trans (Int.natCast_nonneg _) (le_max_right _ _)

theorem computeNext_ok_fields (f : Option JVal) (t : ArtifactTree) (a : AllocArgs)
    (now : String) (doc : List (String × JVal)) (counters : List (String × Int))
    (next : Int) (padded stable : String) (hk : a.kind ∈ KIND_CHOICES)
    (h : computeNext f t a now = .ok (doc, counters, next, padded, stable)) :
    1 ≤ next ∧ padded = pyZfill (pyStr next) a.pad ∧
    stable = prefixOfKind a.kind ++ "-" ++ padded := by
  have hk2 : a.kind = "chg" ∨ a.kind = "spec" := by
    simpa [KIND_CHOICES] using hk
  unfold computeNext at h
  cases hr : read_registry f with
  | error e => rw [hr] at h; exact absurd h (by simp)
  | ok data? =>
      rw [hr] at h
      dsimp only at h
      cases data? with
      | none =>
          simp only [Except.ok.injEq, Prod.mk.injEq] at h
          obtain ⟨hdoc, hcnt, hnext, hpad, hstb⟩ := h
          have hge := cGet_initRegistry_nonneg
            (if a.scan = true then scan_max_ids t else ⟨0, 0⟩) now a.kind hk2
          refine ⟨by omega, ?_, ?_⟩
          · rw [← hpad, hnext]
          · rw [← hstb, ← hpad]
      | some data =>
          dsimp only at h
          split at h
          · simp only [Except.ok.injEq, Prod.mk.injEq] at h
            obtain ⟨hdoc, hcnt, hnext, hpad, hstb⟩ := h
            have hge := cGet_migrate_nonneg
              (if a.scan = true then scan_max_ids t else ⟨0, 0⟩) (lastIdOf data) now a.kind hk2
            refine ⟨by omega, ?_, ?_⟩
            · rw [← hpad, hnext]
            · rw [← hstb, ← hpad]
          · simp only [Except.ok.injEq, Prod.mk.injEq] at h
            obtain ⟨hdoc, hcnt, hnext, hpad, hstb⟩ := h
            have hge := cGet_reconcile_nonneg data
              (if a.scan = true then scan_max_ids t else ⟨0, 0⟩) a.kind hk2
            refine ⟨by omega, ?_, ?_⟩
            · rw [← hpad, hnext]
            · rw [← hstb, ← hpad]

theorem allocate_ok_fields (fs : FS) (a : AllocArgs) (now : String) (r : AllocResult)
    (h : (allocate_next_id fs a now).1 = .ok r) :
    1 ≤ r.id ∧ r.padded_id = pyZfill (pyStr r.id) a.pad ∧
    r.stable_id = prefixOfKind a.kind ++ "-" ++ r.padded_id := by
  unfold allocate_next_id at h
  split at h
  · exact absurd h (by simp)
  · dsimp only at h
    unfold allocateLocked at h
    split at h
    · next hk =>
        dsimp only at h
        cases hc : computeNext fs.registry fs.tree a now with
        | error e =>
            rw [show (FS.mk fs.registry true fs.writeFails fs.tree).registry
                = fs.registry from rfl] at h
            rw [hc] at h
            exact absurd h (by simp)
        | ok v =>
            rw [show (FS.mk fs.registry true fs.writeFails fs.tree).registry
                = fs.registry from rfl] at h
            rw [hc] at h
            obtain ⟨doc, counters, next, padded, stable⟩ := v
            dsimp only at h
            have hfields := computeNext_ok_fields fs.registry fs.tree a now
              doc counters next padded stable hk hc
            split at h
            · have hr : r = ⟨next, padded, stable, a.kind, a.dryRun⟩ :=
                (Except.ok.inj h).symm
              rw [hr]
              exact hfields
            · split at h
              · exact absurd h (by simp)
              · have hr : r = ⟨next, padded, stable, a.kind, a.dryRun⟩ :=
                  (Except.ok.inj h).symm
                rw [hr]
                exact hfields
    · exact absurd h (by simp)

/-- Claim C10: for every successful allocation the padded identifier is
the decimal rendering of the raw id left-padded with zeros to at least the
pad width and never truncated — when the id has at least as many digits as
the pad width the padded id is the full number — and the stable id is the
kind prefix, a hyphen, and the padded id. -/
theorem padded_id_formatting (fs : FS) (a : AllocArgs) (now : String) (r : AllocResult)
    (h : (allocate_next_id fs a now).1 = .ok r) :
    1 ≤ r.id ∧
    r.padded_id = pyZfill (pyStr r.id) a.pad ∧
    (∃ k, r.padded_id.toList = List.replicate k '0' ++ (pyStr r.id).toList) ∧
    (a.pad ≤ ((pyStr r.id).length : Int) → r.padded_id = pyStr r.id) ∧
    r.padded_id.length = max a.pad.toNat (pyStr r.id).length ∧
    r.stable_id = prefixOfKind a.kind ++ "-" ++ r.padded_id := by
  obtain ⟨hpos, hpad, hstb⟩ := allocate_ok_fields fs a now r h
  refine ⟨hpos, hpad, ?_, ?_, ?_, hstb⟩
  · rw [hpad]
    exact ⟨_, pyZfill_pos r.id a.pad hpos⟩
  · intro hle
    rw [hpad]
    exact pyZfill_le _ _ hle
  · rw [hpad]
    exact pyZfill_pos_length r.id a.pad hpos

/-- Claim C10 witness: the theorem at a concrete allocation whose id 1234568
has more digits than the pad width 3, so the padded id is the full number. -/
theorem padded_id_formatting_witness :
    (allocate_next_id
        ⟨some (.obj [("schema_version", .num 2), ("counters", .obj [("chg", .num 1234567)])]),
          false, false, emptyTree⟩
        ⟨3, false, false, "chg"⟩ "T").1
      = .ok ⟨1234568, "1234568", "CHG-1234568", "chg", false⟩ ∧
    (1 : Int) ≤ (1234568 : Int) ∧ "1234568" = pyZfill (pyStr 1234568) 3 := by
  have hok : (allocate_next_id
      ⟨some (.obj [("schema_version", .num 2), ("counters", .obj [("chg", .num 1234567)])]),
        false, false, emptyTree⟩
      ⟨3, false, false, "chg"⟩ "T").1
      = .ok ⟨1234568, "1234568", "CHG-1234568", "chg", false⟩ := by rfl
  have h := padded_id_formatting
    ⟨some (.obj [("schema_version", .num 2), ("counters", .obj [("chg", .num 1234567)])]),
      false, false, emptyTree⟩
    ⟨3, false, false, "chg"⟩ "T" ⟨1234568, "1234568", "CHG-1234568", "chg", false⟩ hok
  exact ⟨hok, h.1, h.2.1⟩

/-! ### Claim C4 -/

theorem chgMax_cons (e : DirEnt) (es : List DirEnt) :
    chgMax (e :: es)
      = match if e.isDir then leadingId e.name else none with
        | some v => max v (chgMax es)
        | none => chgMax es := by
  unfold chgMax
  rw [List.filterMap_cons]
  cases (if e.isDir then leadingId e.name else none) with
  | none => rfl
  | some v => rfl

theorem bumpFold_eq_max (es : List DirEnt) :
    ∀ start : Nat, bumpFold start es = max start (chgMax es) := by
  induction es with
  | nil => intro start; simp [bumpFold, chgMax]
  | cons e es ih =>
      intro start
      rw [chgMax_cons]
      by_cases hd : e.isDir
      · cases hl : leadingId e.name with
        | none =>
            rw [show bumpFold start (e :: es) = bumpFold start es by
              simp [bumpFold, hd, hl], ih]
            simp [hd, hl]
        | some v =>
            rw [show bumpFold start (e :: es)
                = bumpFold (if v > start then v else start) es by
              simp [bumpFold, hd, hl], ih]
            rw [show (if v > start then v else start) = max start v by
              split <;> omega, max_assoc]
            simp [hd, hl]
      · rw [show bumpFold start (e :: es) = bumpFold start es by
          simp [bumpFold, hd], ih]
        simp [hd]

theorem scan_chg_eq_chgMax (entries : List DirEnt) (specs : List String) :
    (scan_max_ids ⟨some entries, none, specs⟩).chg = chgMax entries := by
  show bumpFold 0 entries = chgMax entries
  rw [bumpFold_eq_max]
  omega

/-- One allocation against an absent registry: the counters are seeded from
the scan (or from zero with scanning disabled), the returned id is the
seeded counter of the requested kind plus one, and the seeded document with
the bumped counter is persisted. -/
theorem allocate_absent (tree : ArtifactTree) (pad : Int) (scan : Bool) (kind : String)
    (now : String) (hk : kind = "chg" ∨ kind = "spec") :
    allocate_next_id ⟨none, false, false, tree⟩ ⟨pad, false, scan, kind⟩ now
      = (.ok ⟨(if kind = "chg" then ((if scan then scan_max_ids tree else ⟨0, 0⟩).chg : Int)
              else ((if scan then scan_max_ids tree else ⟨0, 0⟩).spec : Int)) + 1,
          pyZfill (pyStr ((if kind = "chg"
              then ((if scan then scan_max_ids tree else ⟨0, 0⟩).chg : Int)
              else ((if scan then scan_max_ids tree else ⟨0, 0⟩).spec : Int)) + 1)) pad,
          prefixOfKind kind ++ "-" ++ pyZfill (pyStr ((if kind = "chg"
              then ((if scan then scan_max_ids tree else ⟨0, 0⟩).chg : Int)
              else ((if scan then scan_max_ids tree else ⟨0, 0⟩).spec : Int)) + 1)) pad,
          kind, false⟩,
        ⟨some (.obj [("schema_version", .num 2),
          ("counters", .obj
            [("chg", .num (if kind = "chg"
                then ((if scan then scan_max_ids tree else ⟨0, 0⟩).chg : Int) + 1
                else ((if scan then scan_max_ids tree else ⟨0, 0⟩).chg : Int))),
             ("spec", .num (if kind = "spec"
                then ((if scan then scan_max_ids tree else ⟨0, 0⟩).spec : Int) + 1
                else ((if scan then scan_max_ids tree else ⟨0, 0⟩).spec : Int)))]),
          ("updated_at", .str now)]), false, false, tree⟩,
        [.acquireLock, .writeRegistry, .releaseLock]) := by
  rcases hk with rfl | rfl <;>
    simp [allocate_next_id, allocateLocked, computeNext, read_registry, KIND_CHOICES,
      initRegistry, cGet, cLookup, cSet, countersToJ, jSet, prefixOfKind]

/-- Claim C4: with the registry absent and scanning enabled, an allocation
for the chg kind returns one more than the maximum numeric name prefix M
among the first-level task directories; with no matching directory the
maximum is 0 and the returned id is 1. -/
theorem scan_reconciliation_floor (entries : List DirEnt) (specs : List String)
    (M : Nat) (pad : Int) (now : String) (hM : chgMax entries = M) :
    (scan_max_ids ⟨some entries, none, specs⟩).chg = M ∧
    (allocate_next_id ⟨none, false, false, ⟨some entries, none, specs⟩⟩
        ⟨pad, false, true, "chg"⟩ now).1
      = .ok ⟨(M : Int) + 1, pyZfill (pyStr ((M : Int) + 1)) pad,
          "CHG-" ++ pyZfill (pyStr ((M : Int) + 1)) pad, "chg", false⟩ := by
  have hscan : (scan_max_ids ⟨some entries, none, specs⟩).chg = M := by
    rw [scan_chg_eq_chgMax, hM]
  refine ⟨hscan, ?_⟩
  have h := allocate_absent ⟨some entries, none, specs⟩ pad true "chg" now (Or.inl rfl)
  rw [h]
  simp [hscan, prefixOfKind]

/-- Claim C4 witness: a tasks directory containing `000005_feat_x` yields
id 6; one containing no matching directory yields id 1. -/
theorem scan_reconciliation_floor_witness :
    (allocate_next_id ⟨none, false, false, ⟨some [⟨"000005_feat_x", true⟩], none, []⟩⟩
        ⟨6, false, true, "chg"⟩ "T").1
      = .ok ⟨6, pyZfill (pyStr 6) 6, "CHG-" ++ pyZfill (pyStr 6) 6, "chg", false⟩ ∧
    (allocate_next_id ⟨none, false, false, ⟨some [⟨"notes", true⟩], none, []⟩⟩
        ⟨6, false, true, "chg"⟩ "T").1
      = .ok ⟨1, pyZfill (pyStr 1) 6, "CHG-" ++ pyZfill (pyStr 1) 6, "chg", false⟩ := by
  constructor
  · have h := scan_reconciliation_floor [⟨"000005_feat_x", true⟩] [] 5 6 "T" (by decide)
    exact h.2
  · have h := scan_reconciliation_floor [⟨"notes", true⟩] [] 0 6 "T" (by decide)
    simpa using h.2

/-! ### Shared reduction lemmas for the write path -/

/-- A successful non-dry-run allocation: the persisted document is the
working document with the requested counter bumped and the timestamp
refreshed. -/
theorem allocate_write (fs : FS) (a : AllocArgs) (now : String)
    (doc : List (String × JVal)) (counters : List (String × Int))
    (next : Int) (padded stable : String)
    (hk : a.kind ∈ KIND_CHOICES) (hlock : fs.lockHeld = false)
    (hw : fs.writeFails = false) (hd : a.dryRun = false)
    (hc : computeNext fs.registry fs.tree a now = .ok (doc, counters, next, padded, stable)) :
    allocate_next_id fs a now
      = (.ok ⟨next, padded, stable, a.kind, a.dryRun⟩,
        ⟨some (.obj (jSet (jSet doc "counters" (countersToJ (cSet counters a.kind next)))
          "updated_at" (.str now))), false, false, fs.tree⟩,
        .acquireLock :: (((if fs.registry.isSome then [Event.readRegistry] else [])
          ++ [Event.writeRegistry]) ++ [.releaseLock])) := by
  have hbody : allocateLocked ⟨fs.registry, true, fs.writeFails, fs.tree⟩ a now
      = (.ok ⟨next, padded, stable, a.kind, a.dryRun⟩,
         some (.obj (jSet (jSet doc "counters" (countersToJ (cSet counters a.kind next)))
           "updated_at" (.str now))),
         (if fs.registry.isSome then [Event.readRegistry] else []) ++ [Event.writeRegistry]) := by
    unfold allocateLocked
    rw [if_pos hk]
    dsimp only
    rw [hc]
    dsimp only
    rw [hd]
    rw [if_neg (by simp : ¬(false = true)), if_neg (by simp [hw])]
  unfold allocate_next_id
  rw [if_neg (by simp [hlock])]
  dsimp only
  rw [hbody, hw]

/-- `computeNext` on a loaded version-1 registry takes the migration
branch. -/
theorem computeNext_v1 (d data : List (String × JVal)) (tree : ArtifactTree)
    (pad : Int) (dryRun scan : Bool) (kind now : String) (scanned : ScanResult)
    (hread : read_registry (some (.obj d)) = .ok (some data))
    (hsv : pyInt ((jGet data "schema_version").getD (.num 1)) = some 1)
    (hscan : scanned = if scan then scan_max_ids tree else ⟨0, 0⟩) :
    computeNext (some (.obj d)) tree ⟨pad, dryRun, scan, kind⟩ now
      = .ok ((migrate_v1 scanned (lastIdOf data) now).1,
          (migrate_v1 scanned (lastIdOf data) now).2,
          cGet (migrate_v1 scanned (lastIdOf data) now).2 kind + 1,
          pyZfill (pyStr (cGet (migrate_v1 scanned (lastIdOf data) now).2 kind + 1)) pad,
          prefixOfKind kind ++ "-"
            ++ pyZfill (pyStr (cGet (migrate_v1 scanned (lastIdOf data) now).2 kind + 1)) pad) := by
  unfold computeNext
  rw [hread]
  dsimp only
  rw [if_pos hsv, ← hscan]

/-- `computeNext` on a loaded version-≥2 registry takes the reconciliation
branch. -/
theorem computeNext_v2 (d data : List (String × JVal)) (tree : ArtifactTree)
    (pad : Int) (dryRun scan : Bool) (kind now : String) (scanned : ScanResult)
    (hread : read_registry (some (.obj d)) = .ok (some data))
    (hsv : pyInt ((jGet data "schema_version").getD (.num 1)) ≠ some 1)
    (hscan : scanned = if scan then scan_max_ids tree else ⟨0, 0⟩) :
    computeNext (some (.obj d)) tree ⟨pad, dryRun, scan, kind⟩ now
      = .ok ((reconcile_v2 data scanned).1,
          (reconcile_v2 data scanned).2,
          cGet (reconcile_v2 data scanned).2 kind + 1,
          pyZfill (pyStr (cGet (reconcile_v2 data scanned).2 kind + 1)) pad,
          prefixOfKind kind ++ "-"
            ++ pyZfill (pyStr (cGet (reconcile_v2 data scanned).2 kind + 1)) pad) := by
  unfold computeNext
  rw [hread]
  dsimp only
  rw [if_neg hsv, ← hscan]

/-! ### Claim C3 -/

/-- Claim C3: an allocation against a loaded version-1 registry with
last_id L migrates it to a version-2 document whose chg counter is
max(scanned_chg, L) — hence at least L — whose spec counter is
scanned_spec, and which no longer carries the last_id field; with scanning
disabled the scanned maxima are both 0; the allocation computes its next
id from the migrated counters, and the persisted document of a non-dry-run
allocation still has no last_id and a chg counter at least L. -/
theorem v1_migration_seeds_counters
    (d data : List (String × JVal)) (L : Int) (tree : ArtifactTree)
    (pad : Int) (dryRun scan : Bool) (kind now : String) (scanned : ScanResult)
    (hk : kind ∈ KIND_CHOICES)
    (hread : read_registry (some (.obj d)) = .ok (some data))
    (hsv : pyInt ((jGet data "schema_version").getD (.num 1)) = some 1)
    (hlast : jGet data "last_id" = some (.num L))
    (hscan : scanned = if scan then scan_max_ids tree else ⟨0, 0⟩) :
    cGet (migrate_v1 scanned L now).2 "chg" = max (scanned.chg : Int) L ∧
    cGet (migrate_v1 scanned L now).2 "spec" = (scanned.spec : Int) ∧
    jGet (migrate_v1 scanned L now).1 "last_id" = none ∧
    jGet (migrate_v1 scanned L now).1 "schema_version" = some (.num 2) ∧
    L ≤ cGet (migrate_v1 scanned L now).2 "chg" ∧
    (scan = false → scanned = ⟨0, 0⟩) ∧
    computeNext (some (.obj d)) tree ⟨pad, dryRun, scan, kind⟩ now
      = .ok ((migrate_v1 scanned L now).1, (migrate_v1 scanned L now).2,
          cGet (migrate_v1 scanned L now).2 kind + 1,
          pyZfill (pyStr (cGet (migrate_v1 scanned L now).2 kind + 1)) pad,
          prefixOfKind kind ++ "-"
            ++ pyZfill (pyStr (cGet (migrate_v1 scanned L now).2 kind + 1)) pad) ∧
    ∃ d2, (allocate_next_id ⟨some (.obj d), false, false, tree⟩
        ⟨pad, false, scan, kind⟩ now).2.1.registry = some (.obj d2) ∧
      jGet d2 "last_id" = none ∧
      ∃ c : Int, persistedCounter (allocate_next_id ⟨some (.obj d), false, false, tree⟩
          ⟨pad, false, scan, kind⟩ now).2.1 "chg" = some c ∧ L ≤ c := by
  have hk2 : kind = "chg" ∨ kind = "spec" := by simpa [KIND_CHOICES] using hk
  have hL : lastIdOf data = L := by
    unfold lastIdOf
    rw [hlast]
    rfl
  have hA : cGet (migrate_v1 scanned L now).2 "chg" = max (scanned.chg : Int) L := by
    simp [migrate_v1, cGet, cLookup]
  have hB : cGet (migrate_v1 scanned L now).2 "spec" = (scanned.spec : Int) := by
    simp [migrate_v1, cGet, cLookup]
  have hC : jGet (migrate_v1 scanned L now).1 "last_id" = none := by
    simp [migrate_v1, jGet, countersToJ]
  have hD : jGet (migrate_v1 scanned L now).1 "schema_version" = some (.num 2) := by
    simp [migrate_v1, jGet]
  have hE : L ≤ cGet (migrate_v1 scanned L now).2 "chg" := by
    rw [hA]
    exact le_max_right _ _
  have hF := computeNext_v1 d data tree pad dryRun scan kind now scanned hread hsv hscan
  rw [hL] at hF
  have hFw := computeNext_v1 d data tree pad false scan kind now scanned hread hsv hscan
  rw [hL] at hFw
  have hW := allocate_write ⟨some (.obj d), false, false, tree⟩ ⟨pad, false, scan, kind⟩ now
    (migrate_v1 scanned L now).1 (migrate_v1 scanned L now).2
    (cGet (migrate_v1 scanned L now).2 kind + 1)
    (pyZfill (pyStr (cGet (migrate_v1 scanned L now).2 kind + 1)) pad)
    (prefixOfKind kind ++ "-"
      ++ pyZfill (pyStr (cGet (migrate_v1 scanned L now).2 kind + 1)) pad)
    hk rfl rfl rfl hFw
  refine ⟨hA, hB, hC, hD, hE, fun hs => by rw [hscan, hs]; rfl, hF, ?_⟩
  refine ⟨jSet (jSet (migrate_v1 scanned L now).1 "counters"
      (countersToJ (cSet (migrate_v1 scanned L now).2 kind
        (cGet (migrate_v1 scanned L now).2 kind + 1))))
      "updated_at" (.str now), ?_, ?_, ?_⟩
  · rw [hW]
  · rw [jGet_jSet_ne _ "updated_at" "last_id" _ (by decide),
      jGet_jSet_ne _ "counters" "last_id" _ (by decide)]
    exact hC
  · rw [hW]
    rcases hk2 with rfl | rfl
    · refine ⟨max (scanned.chg : Int) L + 1, ?_, by omega⟩
      simp [persistedCounter, migrate_v1, cGet, cLookup, cSet, countersToJ, jSet, jGet]
    · refine ⟨max (scanned.chg : Int) L, ?_, by omega⟩
      simp [persistedCounter, migrate_v1, cGet, cLookup, cSet, countersToJ, jSet, jGet]

/-- Claim C3 witness: the theorem at a concrete version-1 registry with
last_id 41, scanning disabled. -/
theorem v1_migration_seeds_counters_witness :
    cGet (migrate_v1 ⟨0, 0⟩ 41 "T").2 "chg" = max ((0 : Nat) : Int) 41 ∧
    jGet (migrate_v1 ⟨0, 0⟩ 41 "T").1 "last_id" = none ∧
    (41 : Int) ≤ cGet (migrate_v1 ⟨0, 0⟩ 41 "T").2 "chg" := by
  have h := v1_migration_seeds_counters
    [("schema_version", .num 1), ("last_id", .num 41)]
    [("schema_version", .num 1), ("last_id", .num 41)]
    41 emptyTree 6 false false "chg" "T" ⟨0, 0⟩
    (by decide) rfl rfl rfl rfl
  exact ⟨h.1, h.2.2.1, h.2.2.2.2.1⟩

/-! ### Claim C9 -/

/-- The value stored under a counters key of a registry document. -/
def counterEntry (doc : List (String × JVal)) (k : String) : Option JVal :=
  match jGet doc "counters" with
  | some (.obj cs) => jGet cs k
  | _ => none

/-- Every document `read_registry` returns is either version 1 (an integer
1 stored under schema_version) or carries a normalized integer-valued
counters object. -/
theorem read_ok_shape (f : Option JVal) (data : List (String × JVal))
    (hread : read_registry f = .ok (some data)) :
    jGet data "schema_version" = some (.num 1) ∨
    ∃ ncs, jGet data "counters" = some (countersToJ ncs) := by
  unfold read_registry at hread
  dsimp only at hread
  split at hread
  · simp at hread
  · split at hread
    · split at hread
      · simp at hread
      · next sv =>
          split at hread
          · next hsv1 =>
              split at hread
              · simp at hread
              · split at hread
                · simp at hread
                · next li =>
                    left
                    have hdata := Option.some.inj (Except.ok.inj hread)
                    rw [← hdata, jGet_jSet_ne _ "last_id" "schema_version" _ (by decide),
                      jGet_jSet_self, hsv1]
          · split at hread
            · split at hread
              · right
                have hdata := Option.some.inj (Except.ok.inj hread)
                exact ⟨[], by rw [← hdata, jGet_jSet_self]⟩
              · split at hread
                · simp at hread
                · next ncs2 hnorm =>
                    right
                    have hdata := Option.some.inj (Except.ok.inj hread)
                    exact ⟨ncs2, by rw [← hdata, jGet_jSet_self]⟩
              · simp at hread
            · simp at hread
    · simp at hread

theorem counterEntry_of (doc : List (String × JVal)) (cs : List (String × Int)) (k : String)
    (h : jGet doc "counters" = some (countersToJ cs)) :
    counterEntry doc k = (cLookup cs k).map JVal.num := by
  unfold counterEntry
  rw [h]
  show jGet (cs.map fun p => (p.1, JVal.num p.2)) k = (cLookup cs k).map JVal.num
  exact jGet_map_num cs k

/-- Claim C9: a non-dry-run allocation against a loaded version-≥2 registry
modifies only the chg and spec counter entries, the schema_version
normalization and updated_at: every other top-level field and every other
counters key is carried over unchanged into the persisted document. -/
theorem v2_allocation_frame
    (d data : List (String × JVal)) (tree : ArtifactTree) (pad : Int) (scan : Bool)
    (kind now : String) (scanned : ScanResult)
    (hk : kind ∈ KIND_CHOICES)
    (hread : read_registry (some (.obj d)) = .ok (some data))
    (hsv : pyInt ((jGet data "schema_version").getD (.num 1)) ≠ some 1)
    (hscan : scanned = if scan then scan_max_ids tree else ⟨0, 0⟩) :
    ∃ d2, (allocate_next_id ⟨some (.obj d), false, false, tree⟩
        ⟨pad, false, scan, kind⟩ now).2.1.registry = some (.obj d2) ∧
      (∀ key, key ∉ (["schema_version", "counters", "updated_at"] : List String) →
        jGet d2 key = jGet data key) ∧
      (∀ ck, ck ∉ (["chg", "spec"] : List String) →
        counterEntry d2 ck = counterEntry data ck) := by
  have hk2 : kind = "chg" ∨ kind = "spec" := by simpa [KIND_CHOICES] using hk
  have hncs : ∃ ncs, jGet data "counters" = some (countersToJ ncs) := by
    rcases read_ok_shape _ _ hread with hv1 | hc
    · exact absurd (by rw [hv1]; rfl) hsv
    · exact hc
  obtain ⟨ncs, hncs⟩ := hncs
  have hF := computeNext_v2 d data tree pad false scan kind now scanned hread hsv hscan
  have hW := allocate_write ⟨some (.obj d), false, false, tree⟩ ⟨pad, false, scan, kind⟩ now
    (reconcile_v2 data scanned).1 (reconcile_v2 data scanned).2
    (cGet (reconcile_v2 data scanned).2 kind + 1)
    (pyZfill (pyStr (cGet (reconcile_v2 data scanned).2 kind + 1)) pad)
    (prefixOfKind kind ++ "-"
      ++ pyZfill (pyStr (cGet (reconcile_v2 data scanned).2 kind + 1)) pad)
    hk rfl rfl rfl hF
  have hdoc1 : ∃ sv2, (reconcile_v2 data scanned).1
      = jSet (jSet data "schema_version" (.num sv2)) "counters"
          (countersToJ (reconcile_v2 data scanned).2) :=
    ⟨_, rfl⟩
  obtain ⟨sv2, hdoc1⟩ := hdoc1
  have hcs : (reconcile_v2 data scanned).2
      = cSet (cSet ncs "chg" (max (cGet ncs "chg") (scanned.chg : Int)))
          "spec" (max (cGet (cSet ncs "chg" (max (cGet ncs "chg") (scanned.chg : Int)))
            "spec") (scanned.spec : Int)) := by
    unfold reconcile_v2
    dsimp only
    rw [hncs]
    dsimp only [Option.getD_some]
    rw [countersOfJ_truthy]
  refine ⟨jSet (jSet (reconcile_v2 data scanned).1 "counters"
      (countersToJ (cSet (reconcile_v2 data scanned).2 kind
        (cGet (reconcile_v2 data scanned).2 kind + 1))))
      "updated_at" (.str now), ?_, ?_, ?_⟩
  · rw [hW]
  · intro key hkey
    simp only [List.mem_cons, List.not_mem_nil, or_false, not_or] at hkey
    obtain ⟨hk1, hk2, hk3⟩ := hkey
    rw [jGet_jSet_ne _ "updated_at" key _ (fun h => hk3 h.symm),
      jGet_jSet_ne _ "counters" key _ (fun h => hk2 h.symm),
      hdoc1,
      jGet_jSet_ne _ "counters" key _ (fun h => hk2 h.symm),
      jGet_jSet_ne _ "schema_version" key _ (fun h => hk1 h.symm)]
  · intro ck hck
    simp only [List.mem_cons, List.not_mem_nil, or_false, not_or] at hck
    obtain ⟨hc1, hc2⟩ := hck
    have hckind : kind ≠ ck := by
      rcases hk2 with rfl | rfl
      · exact fun h => hc1 h.symm
      · exact fun h => hc2 h.symm
    have hget2 : jGet (jSet (jSet (reconcile_v2 data scanned).1 "counters"
        (countersToJ (cSet (reconcile_v2 data scanned).2 kind
          (cGet (reconcile_v2 data scanned).2 kind + 1))))
        "updated_at" (.str now)) "counters"
        = some (countersToJ (cSet (reconcile_v2 data scanned).2 kind
          (cGet (reconcile_v2 data scanned).2 kind + 1))) := by
      rw [jGet_jSet_ne _ "updated_at" "counters" _ (by decide), jGet_jSet_self]
    rw [counterEntry_of _ _ _ hget2, counterEntry_of _ _ _ hncs,
      cLookup_cSet_ne _ kind ck _ hckind, hcs,
      cLookup_cSet_ne _ "spec" ck _ (fun h => hc2 h.symm),
      cLookup_cSet_ne _ "chg" ck _ (fun h => hc1 h.symm)]

/-- Claim C9 witness: the theorem at a concrete version-2 registry carrying
an extra top-level field and an extra counters key. -/
theorem v2_allocation_frame_witness :
    ∃ d2, (allocate_next_id
        ⟨some (.obj [("schema_version", .num 2),
          ("counters", .obj [("chg", .num 3), ("run", .num 9)]),
          ("note", .str "keep")]), false, false, emptyTree⟩
        ⟨6, false, false, "chg"⟩ "T").2.1.registry = some (.obj d2) ∧
      (∀ key, key ∉ (["schema_version", "counters", "updated_at"] : List String) →
        jGet d2 key = jGet [("schema_version", .num 2),
          ("counters", countersToJ [("chg", 3), ("run", 9)]),
          ("note", .str "keep")] key) ∧
      (∀ ck, ck ∉ (["chg", "spec"] : List String) →
        counterEntry d2 ck = counterEntry [("schema_version", .num 2),
          ("counters", countersToJ [("chg", 3), ("run", 9)]),
          ("note", .str "keep")] ck) := by
  exact v2_allocation_frame
    [("schema_version", .num 2), ("counters", .obj [("chg", .num 3), ("run", .num 9)]),
      ("note", .str "keep")]
    [("schema_version", .num 2), ("counters", countersToJ [("chg", 3), ("run", 9)]),
      ("note", .str "keep")]
    emptyTree 6 false "chg" "T" ⟨0, 0⟩ (by decide) rfl (by decide) rfl

/-! ### Claim C1 -/

/-- The canonical registry document the allocator persists: version 2,
chg and spec counters, update timestamp. -/
def regFields (c s : Nat) (t : String) : List (String × JVal) :=
  [("schema_version", .num 2),
   ("counters", .obj [("chg", .num (c : Int)), ("spec", .num (s : Int))]),
   ("updated_at", .str t)]

theorem persistedCounter_regFields (c s : Nat) (t : String) (l w : Bool)
    (tree : ArtifactTree) (kind : String) (hk : kind = "chg" ∨ kind = "spec") :
    persistedCounter ⟨some (.obj (regFields c s t)), l, w, tree⟩ kind
      = some (if kind = "chg" then (c : Int) else (s : Int)) := by
  rcases hk with rfl | rfl <;> simp [persistedCounter, regFields, jGet]

/-- One non-dry-run allocation with scanning disabled from a canonical
registry state: the requested counter advances by one, the other is
untouched, and the timestamp is refreshed. -/
theorem allocate_good_step (c s : Nat) (t now : String) (tree : ArtifactTree)
    (pad : Int) (kind : String) (hk : kind = "chg" ∨ kind = "spec") :
    allocate_next_id ⟨some (.obj (regFields c s t)), false, false, tree⟩
        ⟨pad, false, false, kind⟩ now
      = (.ok ⟨(if kind = "chg" then (c : Int) else (s : Int)) + 1,
          pyZfill (pyStr ((if kind = "chg" then (c : Int) else (s : Int)) + 1)) pad,
          prefixOfKind kind ++ "-"
            ++ pyZfill (pyStr ((if kind = "chg" then (c : Int) else (s : Int)) + 1)) pad,
          kind, false⟩,
        ⟨some (.obj (regFields (if kind = "chg" then c + 1 else c)
          (if kind = "spec" then s + 1 else s) now)), false, false, tree⟩,
        [.acquireLock, .readRegistry, .writeRegistry, .releaseLock]) := by
  rcases hk with rfl | rfl <;>
    simp [allocate_next_id, allocateLocked, computeNext, read_registry, KIND_CHOICES,
      reconcile_v2, regFields, normalizeCounters, pyInt, pyTruthy, countersOfJ, countersToJ,
      jGet, jSet, cGet, cLookup, cSet, prefixOfKind, lastIdOf, max_eq_left]

/-- Runs of non-dry-run, scan-disabled allocations from a canonical
registry state: the ids are consecutive from the starting counter, and the
final state carries the counter advanced by the run length. -/
theorem runAllocs_good (kind : String) (hk : kind = "chg" ∨ kind = "spec")
    (tree : ArtifactTree) (pad : Int) (now : String) :
    ∀ (n : Nat) (c s : Nat) (t : String),
      ((runAllocs ⟨some (.obj (regFields c s t)), false, false, tree⟩
          ⟨pad, false, false, kind⟩ now n).1.map resultId
        = (List.range n).map fun i : Nat =>
            some ((if kind = "chg" then (c : Int) else (s : Int)) + (i : Int) + 1)) ∧
      ∃ t2, (runAllocs ⟨some (.obj (regFields c s t)), false, false, tree⟩
          ⟨pad, false, false, kind⟩ now n).2
        = ⟨some (.obj (regFields (c + if kind = "chg" then n else 0)
            (s + if kind = "spec" then n else 0) t2)), false, false, tree⟩ := by
  intro n
  induction n with
  | zero =>
      intro c s t
      constructor
      · simp [runAllocs]
      · exact ⟨t, by simp [runAllocs]⟩
  | succ m ih =>
      intro c s t
      have hstep := allocate_good_step c s t now tree pad kind hk
      have hunf1 : (runAllocs ⟨some (.obj (regFields c s t)), false, false, tree⟩
          ⟨pad, false, false, kind⟩ now (m + 1)).1
          = (allocate_next_id ⟨some (.obj (regFields c s t)), false, false, tree⟩
              ⟨pad, false, false, kind⟩ now).1
            :: (runAllocs (allocate_next_id ⟨some (.obj (regFields c s t)), false, false, tree⟩
              ⟨pad, false, false, kind⟩ now).2.1 ⟨pad, false, false, kind⟩ now m).1 := rfl
      have hunf2 : (runAllocs ⟨some (.obj (regFields c s t)), false, false, tree⟩
          ⟨pad, false, false, kind⟩ now (m + 1)).2
          = (runAllocs (allocate_next_id ⟨some (.obj (regFields c s t)), false, false, tree⟩
              ⟨pad, false, false, kind⟩ now).2.1 ⟨pad, false, false, kind⟩ now m).2 := rfl
      have ihm := ih (if kind = "chg" then c + 1 else c) (if kind = "spec" then s + 1 else s) now
      constructor
      · rw [hunf1, List.map_cons, hstep]
        show some ((if kind = "chg" then (c : Int) else (s : Int)) + 1)
            :: ((runAllocs ⟨some (.obj (regFields (if kind = "chg" then c + 1 else c)
              (if kind = "spec" then s + 1 else s) now)), false, false, tree⟩
              ⟨pad, false, false, kind⟩ now m).1.map resultId) = _
        rw [ihm.1, List.range_succ_eq_map, List.map_cons, List.map_map]
        rcases hk with rfl | rfl <;>
          · simp only [String.reduceEq, reduceIte]
            refine congrArg₂ _ (by norm_num) ?_
            apply List.map_congr_left
            intro i _
            refine congrArg _ ?_
            push_cast
            ring
      · obtain ⟨t2, ht2⟩ := ihm.2
        refine ⟨t2, ?_⟩
        rw [hunf2, hstep]
        show (runAllocs ⟨some (.obj (regFields (if kind = "chg" then c + 1 else c)
            (if kind = "spec" then s + 1 else s) now)), false, false, tree⟩
            ⟨pad, false, false, kind⟩ now m).2 = _
        rw [ht2]
        rcases hk with rfl | rfl
        · simp only [String.reduceEq, reduceIte]
          rw [show c + 1 + m = c + (m + 1) by omega]
        · simp only [String.reduceEq, reduceIte]
          rw [show s + 1 + m = s + (m + 1) by omega]

/-- Claim C1: N successive successful non-dry-run allocations of one kind
against an initially absent registry with scanning disabled return the raw
ids 1, 2, ..., N in order, each exactly once, and after the k-th call the
persisted counter for that kind equals k. -/
theorem allocate_sequence_contiguous (N : Nat) (kind : String) (hk : kind ∈ KIND_CHOICES)
    (pad : Int) (tree : ArtifactTree) (now : String) :
    ((runAllocs ⟨none, false, false, tree⟩ ⟨pad, false, false, kind⟩ now N).1.map resultId
      = (List.range N).map fun i : Nat => some ((i : Int) + 1)) ∧
    ∀ k : Nat, 1 ≤ k → k ≤ N →
      persistedCounter ((runAllocs ⟨none, false, false, tree⟩
          ⟨pad, false, false, kind⟩ now k).2) kind = some (k : Int) := by
  have hk2 : kind = "chg" ∨ kind = "spec" := by simpa [KIND_CHOICES] using hk
  have hstep0 : allocate_next_id ⟨none, false, false, tree⟩ ⟨pad, false, false, kind⟩ now
      = (.ok ⟨1, pyZfill (pyStr 1) pad,
          prefixOfKind kind ++ "-" ++ pyZfill (pyStr 1) pad, kind, false⟩,
        ⟨some (.obj (regFields (if kind = "chg" then 1 else 0)
          (if kind = "spec" then 1 else 0) now)), false, false, tree⟩,
        [.acquireLock, .writeRegistry, .releaseLock]) := by
    have h := allocate_absent tree pad false kind now hk2
    rw [h]
    rcases hk2 with rfl | rfl <;>
      simp [regFields, countersToJ]
  constructor
  · cases N with
    | zero => simp [runAllocs]
    | succ n =>
        have hunf : (runAllocs ⟨none, false, false, tree⟩
            ⟨pad, false, false, kind⟩ now (n + 1)).1
            = (allocate_next_id ⟨none, false, false, tree⟩
                ⟨pad, false, false, kind⟩ now).1
              :: (runAllocs (allocate_next_id ⟨none, false, false, tree⟩
                ⟨pad, false, false, kind⟩ now).2.1 ⟨pad, false, false, kind⟩ now n).1 := rfl
        rw [hunf, List.map_cons, hstep0]
        show some (1 : Int) :: ((runAllocs ⟨some (.obj (regFields (if kind = "chg" then 1 else 0)
            (if kind = "spec" then 1 else 0) now)), false, false, tree⟩
            ⟨pad, false, false, kind⟩ now n).1.map resultId) = _
        rw [(runAllocs_good kind hk2 tree pad now n (if kind = "chg" then 1 else 0)
          (if kind = "spec" then 1 else 0) now).1]
        rw [List.range_succ_eq_map, List.map_cons, List.map_map]
        rcases hk2 with rfl | rfl <;>
          · simp only [String.reduceEq, reduceIte]
            refine congrArg₂ _ (by norm_num) ?_
            apply List.map_congr_left
            intro i _
            refine congrArg _ ?_
            push_cast
            ring
  · intro k hk1 hkN
    cases k with
    | zero => omega
    | succ j =>
        have hunf : (runAllocs ⟨none, false, false, tree⟩
            ⟨pad, false, false, kind⟩ now (j + 1)).2
            = (runAllocs (allocate_next_id ⟨none, false, false, tree⟩
                ⟨pad, false, false, kind⟩ now).2.1 ⟨pad, false, false, kind⟩ now j).2 := rfl
        rw [hunf, hstep0]
        show persistedCounter (runAllocs ⟨some (.obj (regFields (if kind = "chg" then 1 else 0)
            (if kind = "spec" then 1 else 0) now)), false, false, tree⟩
            ⟨pad, false, false, kind⟩ now j).2 kind = _
        obtain ⟨t2, ht2⟩ := (runAllocs_good kind hk2 tree pad now j
          (if kind = "chg" then 1 else 0) (if kind = "spec" then 1 else 0) now).2
        rw [ht2, persistedCounter_regFields _ _ _ _ _ _ _ hk2]
        rcases hk2 with rfl | rfl <;>
          · simp only [String.reduceEq, reduceIte]
            push_cast
            ring_nf

/-- Claim C1 witness: three allocations of the chg kind from an absent
registry return ids 1, 2, 3 in order and leave the chg counter at 3. -/
theorem allocate_sequence_contiguous_witness :
    ((runAllocs ⟨none, false, false, emptyTree⟩ ⟨6, false, false, "chg"⟩ "T" 3).1.map resultId
      = [some 1, some 2, some 3]) ∧
    persistedCounter ((runAllocs ⟨none, false, false, emptyTree⟩
        ⟨6, false, false, "chg"⟩ "T" 3).2) "chg" = some 3 := by
  have h := allocate_sequence_contiguous 3 "chg" (by decide) 6 emptyTree "T"
  constructor
  · exact h.1.trans (by decide)
  · simpa using h.2 3 (by norm_num) (by norm_num)

end SaId
